import Mathlib

/-!
Verification development for the extraction-result parsing and validation
pipeline of the card-to-excel repository (src/data_parser.py).

The Python module is shallowly embedded over lists of characters
(`Str := List Char`).  Python regular-expression searches are embedded by a
small executable backtracking matcher (`mseq` below) whose search order is
Python's: leftmost starting position first, then pattern-alternative order,
then greedy (longest-first) quantifiers; alternations appearing in the source
patterns are distributed into explicit branch lists in the same priority
order.  Character classes are modelled at the ASCII level.  Python `$` is
modelled faithfully as also matching just before a single trailing newline.
Fallible operations (Python `int(...)`) return `Except`; the parser's
top-level `try/except` is the `recoverRec` wrapper.
-/

namespace CardParse

abbrev Str := List Char

/-- Characters of a string literal. -/
def chars (s : String) : Str := s.data

/-- Python `str.isspace` / whitespace used by `strip()` (ASCII subset). -/
def isSp (c : Char) : Bool :=
  c.toNat = 32 || c.toNat = 9 || c.toNat = 10 || c.toNat = 13 ||
  c.toNat = 11 || c.toNat = 12

/-- ASCII digit, the model of `\d`. -/
def isD (c : Char) : Bool := 48 ≤ c.toNat && c.toNat ≤ 57

/-- ASCII letter, the model of `[A-Za-z]` (case-insensitive contexts). -/
def isAlpha (c : Char) : Bool :=
  (65 ≤ c.toNat && c.toNat ≤ 90) || (97 ≤ c.toNat && c.toNat ≤ 122)

/-- ASCII word character, the model of `\w`. -/
def isW (c : Char) : Bool := isD c || isAlpha c || c.toNat = 95

/-- The class `[:\s]`. -/
def colSp (c : Char) : Bool := c.toNat = 58 || isSp c

/-- The class `[\w\s]`. -/
def wSp (c : Char) : Bool := isW c || isSp c

/-- The class `[\w\s/]`. -/
def wSpSl (c : Char) : Bool := wSp c || c.toNat = 47

/-- ASCII lower-casing of one character, the model of Python `str.lower`. -/
def lowC (c : Char) : Char :=
  if 65 ≤ c.toNat ∧ c.toNat ≤ 90 then Char.ofNat (c.toNat + 32) else c

/-- ASCII upper-casing of one character, the model of Python `str.upper`. -/
def upC (c : Char) : Char :=
  if 97 ≤ c.toNat ∧ c.toNat ≤ 122 then Char.ofNat (c.toNat - 32) else c

def pyLower (l : Str) : Str := l.map lowC

def pyUpper (l : Str) : Str := l.map upC

/-- Strip leading whitespace. -/
def trimL (l : Str) : Str := l.dropWhile isSp

/-- Strip trailing whitespace. -/
def trimR (l : Str) : Str := (l.reverse.dropWhile isSp).reverse

/-- Python `str.strip()`. -/
def pyStrip (l : Str) : Str := trimR (trimL l)

/-- Python `str.isdigit()` (ASCII model): nonempty and all digits. -/
def pyIsDigit (l : Str) : Bool := !l.isEmpty && l.all isD

/-- Numeric value of a digit string. -/
def digitsToNat (l : Str) : Nat := l.foldl (fun a c => a * 10 + (c.toNat - 48)) 0

/-- Python `int(s)` for the nonnegative decimal strings this program feeds it:
surrounding whitespace is tolerated, anything else raises (`Except.error`). -/
def pyInt (l : Str) : Except Unit Nat :=
  let t := pyStrip l
  if !t.isEmpty && t.all isD then Except.ok (digitsToNat t) else Except.error ()

/-- Decimal rendering of a natural number (for interpolated messages). -/
def natToStr (n : Nat) : Str := (toString n).data

/-- Python `str.split()` with no argument: split on whitespace runs,
discarding empty pieces. -/
def splitWsAux : Str → Str → List Str
  | [], cur => if cur.isEmpty then [] else [cur.reverse]
  | c :: cs, cur =>
    if isSp c then
      if cur.isEmpty then splitWsAux cs [] else cur.reverse :: splitWsAux cs []
    else splitWsAux cs (c :: cur)

def pySplitWs (l : Str) : List Str := splitWsAux l []

/-- Python `str.split('/')` (keeps empty pieces). -/
def splitSlashAux : Str → Str → List Str
  | [], cur => [cur.reverse]
  | c :: cs, cur =>
    if c = ('/') then cur.reverse :: splitSlashAux cs []
    else splitSlashAux cs (c :: cur)

def pySplitSlash (l : Str) : List Str := splitSlashAux l []

/-- Python `str.replace(a, b)` for single characters. -/
def pyReplace (a b : Char) (l : Str) : Str := l.map fun c => if c = a then b else c

/-- Python `str.zfill(2)`. -/
def zfill2 (l : Str) : Str :=
  if 2 ≤ l.length then l
  else if l.length = 1 then ('0') :: l
  else [('0'), ('0')]

/-- Model of `re.match(r'^\d{n}$', s)`: `n` digits, Python's `$` also
matching just before one trailing newline. -/
def pyFullDigits (n : Nat) (l : Str) : Bool :=
  (l.length = n && l.all isD) ||
  (l.length = n + 1 && l.dropLast.all isD && l.getLast? = some ('\n'))

/-- Model of `re.match(r'^\d{1,2}/\d{1,2}/\d{4}$', s)` (with the `$`
trailing-newline tolerance). -/
def dateShape (s : Str) : Bool :=
  let d := s.takeWhile isD
  let r1 := s.dropWhile isD
  (1 ≤ d.length && d.length ≤ 2) &&
  match r1 with
  | ('/') :: r1' =>
    let m := r1'.takeWhile isD
    let r2 := r1'.dropWhile isD
    (1 ≤ m.length && m.length ≤ 2) &&
    (match r2 with
     | ('/') :: r2' =>
       let y := r2'.takeWhile isD
       let r3 := r2'.dropWhile isD
       (y.length = 4) && (r3.isEmpty || r3 = [('\n')])
     | _ => false)
  | _ => false

/-! ### `normalize_address` (src/data_parser.py lines 7-37)

The five Bahir-Dar alias regexes are searched (case-insensitively, via the
source's explicit `address.lower().strip()`) by a direct scanner: at each
position, with `\b` decided from the previous character, each alternative is
tried; `bahir\s*dar` consumes the maximal whitespace run (forced, since `dar`
starts with a non-space). -/

/-- Left word boundary `\b` before a word character. -/
def leftB (prev : Option Char) : Bool :=
  match prev with
  | none => true
  | some c => !isW c

/-- Right word boundary `\b` after a word character. -/
def rightB : Str → Bool
  | [] => true
  | c :: _ => !isW c

/-- Exact-literal prefix match, returning the remainder. -/
def matchL : Str → Str → Option Str
  | [], s => some s
  | _ :: _, [] => none
  | p :: ps, c :: cs => if c = p then matchL ps cs else none

/-- Does one of the five Bahir-Dar alias patterns (`\bbdr\b`, `\bb/dar\b`,
`\bb/dr\b`, `\bbahir\s*dar\b`, `\bbahirdar\b`) match at the head of `s`
(left boundary already checked by the caller)? -/
def aliasHere (s : Str) : Bool :=
  (match matchL (chars ("bdr")) s with
   | some r => rightB r
   | none => false) ||
  (match matchL (chars ("b/dar")) s with
   | some r => rightB r
   | none => false) ||
  (match matchL (chars ("b/dr")) s with
   | some r => rightB r
   | none => false) ||
  (match matchL (chars ("bahir")) s with
   | some r1 =>
     (match matchL (chars ("dar")) (r1.dropWhile isSp) with
      | some r3 => rightB r3
      | none => false)
   | none => false) ||
  (match matchL (chars ("bahirdar")) s with
   | some r => rightB r
   | none => false)

/-- Scan every position of the (lowered, stripped) address for an alias. -/
def bdScan : Option Char → Str → Bool
  | _, [] => false
  | prev, c :: cs => (leftB prev && aliasHere (c :: cs)) || bdScan (some c) cs

/-- `normalize_address` (lines 7-37): empty strings pass through; otherwise
search the lowered, stripped address for a Bahir-Dar alias and collapse to
the canonical spelling, else return the stripped original. -/
def normalize_address (a : Str) : Str :=
  if a.isEmpty then a
  else if bdScan none (pyStrip (pyLower a)) then chars ("Bahir Dar")
  else pyStrip a

/-! ### `validate_kebele`, `validate_ethiopian_date`,
`normalize_ethiopian_date` (lines 39-125) -/

/-- `validate_kebele` (lines 39-63). -/
def validate_kebele (k : Str) : Bool :=
  if k.isEmpty || (pyStrip k).isEmpty then true
  else if !pyFullDigits 2 k then false
  else
    match pyInt k with
    | Except.ok n => 1 ≤ n && n ≤ 17
    | Except.error _ => false

/-- The day/month/year integers of a date string that passes the shape
regex, `none` otherwise. -/
def pyDateTriple (s : Str) : Option (Nat × Nat × Nat) :=
  if dateShape s then
    match pySplitSlash s with
    | [d, m, y] =>
      match pyInt d, pyInt m, pyInt y with
      | Except.ok dd, Except.ok mm, Except.ok yy => some (dd, mm, yy)
      | _, _, _ => none
    | _ => none
  else none

/-- `validate_ethiopian_date` (lines 65-99). -/
def validate_ethiopian_date (s : Str) : Bool :=
  if s.isEmpty then false
  else if !dateShape s then false
  else
    match pySplitSlash s with
    | [d, m, y] =>
      match pyInt d, pyInt m, pyInt y with
      | Except.ok dd, Except.ok mm, Except.ok yy =>
        if !(1 ≤ dd && dd ≤ 30 && 1 ≤ mm && mm ≤ 13 && 1000 ≤ yy && yy ≤ 9999)
        then false
        else if mm = 13 && 6 < dd then false
        else true
      | _, _, _ => false
    | _ => false

/-- `normalize_ethiopian_date` (lines 101-125): zero-pad day and month when
the string already has the `DD/MM/YYYY` shape. -/
def normalize_ethiopian_date (s : Str) : Str :=
  if s.isEmpty then s
  else if dateShape s then
    match pySplitSlash s with
    | [d, m, y] => zfill2 d ++ ('/') :: zfill2 m ++ ('/') :: y
    | _ => s
  else s

/-! ### Embedded regex matcher for the fallback patterns
(`re.search(pattern, text, re.IGNORECASE)` in lines 231-420)

Every fallback pattern of the source is a sequence of literals, single-
character classes, greedy quantifiers over a class, optional literals, word
boundaries and exactly one capturing group, with alternations only over such
sequences.  A pattern is therefore represented as an ordered list of
branches (alternation distributed, preserving Python's priority order), each
branch being `pre ++ (inner) ++ post` with `inner` the capturing group.
Matching is case-insensitive (literals are stored lower-case and input
characters are lowered before comparison; captures keep the original text),
which also embeds the patterns compiled without `re.IGNORECASE`, since those
only match digits.  Search order is Python's: positions left to right,
branches in order, quantifiers greedy with backtracking. -/

/-- One regex item. -/
inductive RI where
  | lit (cs : Str)
  | cls (p : Char → Bool)
  | star (p : Char → Bool)
  | plus (p : Char → Bool)
  | rep (p : Char → Bool) (lo hi : Nat)
  | opt (cs : Str)
  | bnd

/-- One alternation branch of a pattern: `pre (inner) post`. -/
structure Pat where
  pre : List RI
  inner : List RI
  post : List RI

/-- Case-insensitive literal prefix match (pattern side is lower-case). -/
def stripCI : Str → Str → Option Str
  | [], s => some s
  | _ :: _, [] => none
  | p :: ps, c :: cs => if lowC c = p then stripCI ps cs else none

/-- Previous-character state after consuming `taken`. -/
def advPrev (prev : Option Char) (taken : Str) : Option Char :=
  match taken.getLast? with
  | some c => some c
  | none => prev

/-- Length of the maximal run of class `p` (applied to lowered chars). -/
def cw (p : Char → Bool) (s : Str) : Nat :=
  (s.takeWhile fun c => p (lowC c)).length

/-- `\b`: word-ness differs between the previous character (none at the
start of the string) and the next one (none at the end). -/
def atBnd (prev : Option Char) (s : Str) : Bool :=
  (match prev with
   | none => false
   | some c => isW c) !=
  (match s with
   | [] => false
   | c :: _ => isW c)

/-- Greedy quantifier driver: try taking `i, i-1, ..., lo` characters. -/
def descendFrom (att : Nat → Option Str) (lo : Nat) : Nat → Option Str
  | 0 => if lo = 0 then att 0 else none
  | i + 1 =>
    if lo ≤ i + 1 then
      match att (i + 1) with
      | some r => some r
      | none => descendFrom att lo i
    else none

/-- Backtracking matcher for one item sequence, in continuation style. -/
def mseq : List RI → Option Char → Str → (Option Char → Str → Option Str) →
    Option Str
  | [], prev, s, k => k prev s
  | RI.lit cs :: rest, prev, s, k =>
    (match stripCI cs s with
     | some s2 => mseq rest (advPrev prev cs) s2 k
     | none => none)
  | RI.cls p :: rest, _, s, k =>
    (match s with
     | [] => none
     | c :: s2 => if p (lowC c) then mseq rest (some c) s2 k else none)
  | RI.star p :: rest, prev, s, k =>
    descendFrom (fun i => mseq rest (advPrev prev (s.take i)) (s.drop i) k)
      0 (cw p s)
  | RI.plus p :: rest, prev, s, k =>
    descendFrom (fun i => mseq rest (advPrev prev (s.take i)) (s.drop i) k)
      1 (cw p s)
  | RI.rep p lo hi :: rest, prev, s, k =>
    descendFrom (fun i => mseq rest (advPrev prev (s.take i)) (s.drop i) k)
      lo (min hi (cw p s))
  | RI.opt cs :: rest, prev, s, k =>
    (match stripCI cs s with
     | some s2 =>
       (match mseq rest (advPrev prev cs) s2 k with
        | some r => some r
        | none => mseq rest prev s k)
     | none => mseq rest prev s k)
  | RI.bnd :: rest, prev, s, k =>
    if atBnd prev s then mseq rest prev s k else none

/-- Match one branch at the head of `s`; the result is group 1's text. -/
def mpat (pt : Pat) (prev : Option Char) (s : Str) : Option Str :=
  mseq pt.pre prev s fun pv1 s1 =>
    mseq pt.inner pv1 s1 fun pv2 s2 =>
      mseq pt.post pv2 s2 fun _ _ => some (s1.take (s1.length - s2.length))

/-- Try the branches of one source pattern in priority order. -/
def tryBranches : List Pat → Option Char → Str → Option Str
  | [], _, _ => none
  | p :: ps, prev, s =>
    (match mpat p prev s with
     | some g => some g
     | none => tryBranches ps prev s)

/-- Leftmost search: positions left to right (including the end position). -/
def searchFrom (br : List Pat) : Option Char → Str → Option Str
  | prev, [] => tryBranches br prev []
  | prev, c :: cs =>
    (match tryBranches br prev (c :: cs) with
     | some g => some g
     | none => searchFrom br (some c) cs)

/-- `re.search(pattern, text)`, returning `match.group(1)`. -/
def reSearch (br : List Pat) (s : Str) : Option Str := searchFrom br none s

/-! ### Tagged extraction (`re.search(r'<tag>(.*?)</tag>', text, re.DOTALL)`,
lines 142-223)

The lazy group of `<tag>(.*?)</tag>` takes, from the first occurrence of the
opening tag, everything up to the next occurrence of the closing tag. -/

/-- Split `s` at the first occurrence of `pat` (exact case), returning the
part before and the part after the occurrence. -/
def findSub (pat : Str) : Str → Option (Str × Str)
  | [] =>
    (match matchL pat [] with
     | some r => some ([], r)
     | none => none)
  | c :: cs =>
    (match matchL pat (c :: cs) with
     | some r => some ([], r)
     | none =>
       match findSub pat cs with
       | some (b, a) => some (c :: b, a)
       | none => none)

/-- `re.search(r'<tag>(.*?)</tag>', text, re.DOTALL)`, group 1. -/
def extractTag (tag : Str) (t : Str) : Option Str :=
  match findSub (('<') :: tag ++ [('>')]) t with
  | none => none
  | some (_, rest) =>
    match findSub (('<') :: ('/') :: tag ++ [('>')]) rest with
    | none => none
    | some (mid, _) => some mid

/-- The record assembled by `parse_extraction_result`; all seven fields are
independently nullable. -/
structure Rec where
  PatientName : Option Str
  Age : Option Str
  Sex : Option Str
  Telephone : Option Str
  Address : Option Str
  Kebele : Option Str
  Date : Option Str
deriving DecidableEq, Repr

/-- The all-null record (line 140 and the `except` branch, line 444). -/
def nullRec : Rec := ⟨none, none, none, none, none, none, none⟩

/-- Tagged extraction of the patient name (lines 151-156): stored verbatim
(stripped), no validation. -/
def taggedName (t : Str) : Option Str :=
  (extractTag (chars ("patient_name")) t).map pyStrip

/-- Tagged extraction of the age (lines 158-163): stored verbatim
(stripped), no validation. -/
def taggedAge (t : Str) : Option Str :=
  (extractTag (chars ("age")) t).map pyStrip

/-- Tagged extraction of the sex (lines 165-174): only "M" or "F" kept. -/
def taggedSex (t : Str) : Option Str :=
  (extractTag (chars ("sex")) t).bind fun c =>
    let v := pyStrip c
    if v = chars ("M") || v = chars ("F") then some v else none

/-- Tagged extraction of the telephone (lines 176-185): kept only when it
matches `^\d{10}$`. -/
def taggedTelephone (t : Str) : Option Str :=
  (extractTag (chars ("telephone")) t).bind fun c =>
    let v := pyStrip c
    if pyFullDigits 10 v then some v else none

/-- Tagged extraction of the address (lines 187-197): nonempty values are
normalized and kept, empty ones ignored. -/
def taggedAddress (t : Str) : Option Str :=
  (extractTag (chars ("address")) t).bind fun c =>
    let v := pyStrip c
    if !v.isEmpty then some (normalize_address v) else none

/-- Tagged extraction of the kebele (lines 199-208): kept when blank or
accepted by `validate_kebele`. -/
def taggedKebele (t : Str) : Option Str :=
  (extractTag (chars ("kebele")) t).bind fun c =>
    let v := pyStrip c
    if v.isEmpty || validate_kebele v then some v else none

/-- Tagged extraction of the date (lines 210-223): nonempty values passing
`validate_ethiopian_date` are normalized and kept. -/
def taggedDate (t : Str) : Option Str :=
  (extractTag (chars ("date")) t).bind fun c =>
    let v := pyStrip c
    if !v.isEmpty then
      if validate_ethiopian_date v then some (normalize_ethiopian_date v)
      else none
    else none

/-- The record after the tagged-extraction phase (lines 140-223). -/
def taggedRec (t : Str) : Rec :=
  ⟨taggedName t, taggedAge t, taggedSex t, taggedTelephone t,
   taggedAddress t, taggedKebele t, taggedDate t⟩

/-- The early-return gate of lines 226-229: some field was extracted. -/
def anyNonNull (r : Rec) : Bool :=
  r.PatientName.isSome || r.Age.isSome || r.Sex.isSome || r.Telephone.isSome ||
  r.Address.isSome || r.Kebele.isSome || r.Date.isSome

/-! ### Fallback pattern tables (lines 233-420)

Each source pattern becomes a list of `Pat` branches; a field's fallback is
the source's `for pattern in patterns` loop: first pattern whose first match
passes the field's acceptance step wins (`scanPats`). -/

/-- `for pattern in patterns: if re.search: if accept: set; break`. -/
def scanPats (t : Str) : List (List Pat × (Str → Option Str)) → Option Str
  | [] => none
  | (br, acc) :: ps =>
    (match reSearch br t with
     | some g =>
       (match acc g with
        | some v => some v
        | none => scanPats t ps)
     | none => scanPats t ps)

/-- `(?:name|patient name|full name)[:\s]*([\w\s]+)` (line 237). -/
def namePat1 : List Pat :=
  [⟨[RI.lit (chars ("name")), RI.star colSp], [RI.plus wSp], []⟩,
   ⟨[RI.lit (chars ("patient name")), RI.star colSp], [RI.plus wSp], []⟩,
   ⟨[RI.lit (chars ("full name")), RI.star colSp], [RI.plus wSp], []⟩]

/-- `(?:patient|person)[\s]*(?:is|named)[\s]*([\w\s]+)` (line 238). -/
def namePat2 : List Pat :=
  [⟨[RI.lit (chars ("patient")), RI.star isSp, RI.lit (chars ("is")),
     RI.star isSp], [RI.plus wSp], []⟩,
   ⟨[RI.lit (chars ("patient")), RI.star isSp, RI.lit (chars ("named")),
     RI.star isSp], [RI.plus wSp], []⟩,
   ⟨[RI.lit (chars ("person")), RI.star isSp, RI.lit (chars ("is")),
     RI.star isSp], [RI.plus wSp], []⟩,
   ⟨[RI.lit (chars ("person")), RI.star isSp, RI.lit (chars ("named")),
     RI.star isSp], [RI.plus wSp], []⟩]

/-- `\b([A-Za-z]+\s+[A-Za-z]+)\b` (line 239). -/
def namePat3 : List Pat :=
  [⟨[RI.bnd], [RI.plus isAlpha, RI.plus isSp, RI.plus isAlpha], [RI.bnd]⟩]

/-- Acceptance step of the name loop (lines 242-251): the stripped capture
must split into exactly two words. -/
def nameAccept (g : Str) : Option Str :=
  let v := pyStrip g
  if (pySplitWs v).length = 2 then some v else none

def namePats : List (List Pat × (Str → Option Str)) :=
  [(namePat1, nameAccept), (namePat2, nameAccept), (namePat3, nameAccept)]

/-- The seven age patterns of lines 262-270, in order. -/
def agePat1 : List Pat :=
  [⟨[RI.lit (chars ("age")), RI.star colSp], [RI.plus isD], []⟩]

def agePat2 : List Pat :=
  [⟨[], [RI.plus isD], [RI.star isSp, RI.lit (chars ("years")), RI.star isSp,
     RI.lit (chars ("old"))]⟩,
   ⟨[], [RI.plus isD], [RI.star isSp, RI.lit (chars ("year")), RI.star isSp,
     RI.lit (chars ("old"))]⟩,
   ⟨[], [RI.plus isD], [RI.star isSp, RI.lit (chars ("yrs")), RI.star isSp,
     RI.lit (chars ("old"))]⟩,
   ⟨[], [RI.plus isD], [RI.star isSp, RI.lit (chars ("yr")), RI.star isSp,
     RI.lit (chars ("old"))]⟩]

def agePat3 : List Pat :=
  [⟨[], [RI.plus isD], [RI.star isSp, RI.lit (chars ("years"))]⟩,
   ⟨[], [RI.plus isD], [RI.star isSp, RI.lit (chars ("year"))]⟩,
   ⟨[], [RI.plus isD], [RI.star isSp, RI.lit (chars ("yrs"))]⟩,
   ⟨[], [RI.plus isD], [RI.star isSp, RI.lit (chars ("yr"))]⟩]

def agePat4 : List Pat :=
  [⟨[RI.lit (chars ("age")), RI.star colSp, RI.lit (chars ("is")),
     RI.star isSp], [RI.plus isD], []⟩]

def agePat5 : List Pat :=
  [⟨[RI.lit (chars ("patient")), RI.star isSp, RI.lit (chars ("is")),
     RI.star isSp], [RI.plus isD], [RI.star isSp, RI.lit (chars ("years"))]⟩,
   ⟨[RI.lit (chars ("patient")), RI.star isSp, RI.lit (chars ("is")),
     RI.star isSp], [RI.plus isD], [RI.star isSp, RI.lit (chars ("year"))]⟩,
   ⟨[RI.lit (chars ("patient")), RI.star isSp, RI.lit (chars ("is")),
     RI.star isSp], [RI.plus isD], [RI.star isSp, RI.lit (chars ("yrs"))]⟩,
   ⟨[RI.lit (chars ("patient")), RI.star isSp, RI.lit (chars ("is")),
     RI.star isSp], [RI.plus isD], [RI.star isSp, RI.lit (chars ("yr"))]⟩,
   ⟨[RI.lit (chars ("person")), RI.star isSp, RI.lit (chars ("is")),
     RI.star isSp], [RI.plus isD], [RI.star isSp, RI.lit (chars ("years"))]⟩,
   ⟨[RI.lit (chars ("person")), RI.star isSp, RI.lit (chars ("is")),
     RI.star isSp], [RI.plus isD], [RI.star isSp, RI.lit (chars ("year"))]⟩,
   ⟨[RI.lit (chars ("person")), RI.star isSp, RI.lit (chars ("is")),
     RI.star isSp], [RI.plus isD], [RI.star isSp, RI.lit (chars ("yrs"))]⟩,
   ⟨[RI.lit (chars ("person")), RI.star isSp, RI.lit (chars ("is")),
     RI.star isSp], [RI.plus isD], [RI.star isSp, RI.lit (chars ("yr"))]⟩]

def agePat6 : List Pat :=
  [⟨[RI.lit (chars ("patient")), RI.star isSp, RI.lit (chars ("age")),
     RI.star isSp], [RI.plus isD], []⟩,
   ⟨[RI.lit (chars ("patient")), RI.star isSp, RI.lit (chars ("aged")),
     RI.star isSp], [RI.plus isD], []⟩,
   ⟨[RI.lit (chars ("person")), RI.star isSp, RI.lit (chars ("age")),
     RI.star isSp], [RI.plus isD], []⟩,
   ⟨[RI.lit (chars ("person")), RI.star isSp, RI.lit (chars ("aged")),
     RI.star isSp], [RI.plus isD], []⟩]

def agePat7 : List Pat :=
  [⟨[], [RI.plus isD], [RI.star isSp, RI.lit (chars ("yo"))]⟩,
   ⟨[], [RI.plus isD], [RI.star isSp, RI.lit (chars ("y.o."))]⟩]

/-- Acceptance step of the age loop (lines 272-278): unconditional. -/
def ageAccept (g : Str) : Option Str := some (pyStrip g)

def agePats : List (List Pat × (Str → Option Str)) :=
  [(agePat1, ageAccept), (agePat2, ageAccept), (agePat3, ageAccept),
   (agePat4, ageAccept), (agePat5, ageAccept), (agePat6, ageAccept),
   (agePat7, ageAccept)]

/-- `(\d+)` — the last-resort age search of line 282 (no IGNORECASE). -/
def digitPat : List Pat := [⟨[], [RI.plus isD], []⟩]

/-- The four sex patterns of lines 292-297, in order. -/
def sexPat1 : List Pat :=
  [⟨[RI.bnd], [RI.lit (chars ("male"))], [RI.bnd]⟩,
   ⟨[RI.bnd], [RI.lit (chars ("female"))], [RI.bnd]⟩]

def sexPat2 : List Pat :=
  [⟨[RI.bnd], [RI.lit (chars ("m"))], [RI.bnd]⟩,
   ⟨[RI.bnd], [RI.lit (chars ("f"))], [RI.bnd]⟩]

def sexPat3 : List Pat :=
  [⟨[RI.lit (chars ("sex")), RI.star colSp], [RI.lit (chars ("male"))], []⟩,
   ⟨[RI.lit (chars ("sex")), RI.star colSp], [RI.lit (chars ("female"))], []⟩,
   ⟨[RI.lit (chars ("sex")), RI.star colSp], [RI.lit (chars ("m"))], []⟩,
   ⟨[RI.lit (chars ("sex")), RI.star colSp], [RI.lit (chars ("f"))], []⟩,
   ⟨[RI.lit (chars ("gender")), RI.star colSp], [RI.lit (chars ("male"))], []⟩,
   ⟨[RI.lit (chars ("gender")), RI.star colSp], [RI.lit (chars ("female"))], []⟩,
   ⟨[RI.lit (chars ("gender")), RI.star colSp], [RI.lit (chars ("m"))], []⟩,
   ⟨[RI.lit (chars ("gender")), RI.star colSp], [RI.lit (chars ("f"))], []⟩]

def sexPat4 : List Pat :=
  [⟨[RI.lit (chars ("patient")), RI.star isSp, RI.lit (chars ("is")),
     RI.star isSp], [RI.lit (chars ("male"))], []⟩,
   ⟨[RI.lit (chars ("patient")), RI.star isSp, RI.lit (chars ("is")),
     RI.star isSp], [RI.lit (chars ("female"))], []⟩,
   ⟨[RI.lit (chars ("person")), RI.star isSp, RI.lit (chars ("is")),
     RI.star isSp], [RI.lit (chars ("male"))], []⟩,
   ⟨[RI.lit (chars ("person")), RI.star isSp, RI.lit (chars ("is")),
     RI.star isSp], [RI.lit (chars ("female"))], []⟩]

/-- Acceptance step of the sex loop (lines 299-313): upper-case, map
MALE/FEMALE to M/F, keep only M or F. -/
def sexAccept (g : Str) : Option Str :=
  let u := pyUpper (pyStrip g)
  let u' := if u = chars ("MALE") then chars ("M")
            else if u = chars ("FEMALE") then chars ("F") else u
  if u' = chars ("M") || u' = chars ("F") then some u' else none

def sexPats : List (List Pat × (Str → Option Str)) :=
  [(sexPat1, sexAccept), (sexPat2, sexAccept), (sexPat3, sexAccept),
   (sexPat4, sexAccept)]

/-- The four telephone patterns of lines 318-323, in order. -/
def telPat1 : List Pat := [⟨[RI.bnd], [RI.rep isD 10 10], [RI.bnd]⟩]

def telPat2 : List Pat :=
  [⟨[RI.lit (chars ("phone")), RI.star colSp], [RI.rep isD 10 10], []⟩,
   ⟨[RI.lit (chars ("telephone")), RI.star colSp], [RI.rep isD 10 10], []⟩,
   ⟨[RI.lit (chars ("tel")), RI.star colSp], [RI.rep isD 10 10], []⟩,
   ⟨[RI.lit (chars ("mobile")), RI.star colSp], [RI.rep isD 10 10], []⟩]

def telPat3 : List Pat :=
  [⟨[RI.lit (chars ("phone")), RI.star colSp, RI.opt (chars ("+251"))],
    [RI.rep isD 10 10], []⟩,
   ⟨[RI.lit (chars ("telephone")), RI.star colSp, RI.opt (chars ("+251"))],
    [RI.rep isD 10 10], []⟩,
   ⟨[RI.lit (chars ("tel")), RI.star colSp, RI.opt (chars ("+251"))],
    [RI.rep isD 10 10], []⟩,
   ⟨[RI.lit (chars ("mobile")), RI.star colSp, RI.opt (chars ("+251"))],
    [RI.rep isD 10 10], []⟩]

def telPat4 : List Pat := [⟨[RI.lit (chars ("0"))], [RI.rep isD 9 9], []⟩]

/-- Acceptance step of the telephone loop for patterns 1-3 (lines 325-337):
the capture must be exactly 10 digits. -/
def telAccept (g : Str) : Option Str :=
  let v := pyStrip g
  if pyFullDigits 10 v then some v else none

/-- Acceptance step for pattern 4 (`0(\d9)`): a 9-digit capture gets the
leading 0 restored. -/
def telAccept0 (g : Str) : Option Str :=
  let v := pyStrip g
  if pyFullDigits 10 v then some v
  else if pyFullDigits 9 v then some (('0') :: v)
  else none

def telPats : List (List Pat × (Str → Option Str)) :=
  [(telPat1, telAccept), (telPat2, telAccept), (telPat3, telAccept),
   (telPat4, telAccept0)]

/-- The thirteen address patterns of lines 342-355, in order. -/
def addrPat1 : List Pat :=
  [⟨[RI.lit (chars ("address")), RI.star colSp], [RI.plus wSpSl], []⟩,
   ⟨[RI.lit (chars ("location")), RI.star colSp], [RI.plus wSpSl], []⟩,
   ⟨[RI.lit (chars ("city")), RI.star colSp], [RI.plus wSpSl], []⟩,
   ⟨[RI.lit (chars ("town")), RI.star colSp], [RI.plus wSpSl], []⟩]

def addrPat2 : List Pat :=
  [⟨[RI.lit (chars ("from")), RI.star colSp], [RI.plus wSpSl], []⟩,
   ⟨[RI.lit (chars ("in")), RI.star colSp], [RI.plus wSpSl], []⟩,
   ⟨[RI.lit (chars ("at")), RI.star colSp], [RI.plus wSpSl], []⟩]

def addrPat3 : List Pat :=
  [⟨[RI.bnd], [RI.lit (chars ("bahir")), RI.star isSp, RI.lit (chars ("dar"))],
    [RI.bnd]⟩,
   ⟨[RI.bnd], [RI.lit (chars ("bdr"))], [RI.bnd]⟩,
   ⟨[RI.bnd], [RI.lit (chars ("b/dar"))], [RI.bnd]⟩,
   ⟨[RI.bnd], [RI.lit (chars ("b/dr"))], [RI.bnd]⟩]

def addrPat4 : List Pat :=
  [⟨[RI.bnd], [RI.lit (chars ("addis")), RI.star isSp, RI.lit (chars ("ababa"))],
    [RI.bnd]⟩,
   ⟨[RI.bnd], [RI.lit (chars ("aa"))], [RI.bnd]⟩,
   ⟨[RI.bnd], [RI.lit (chars ("a.a."))], [RI.bnd]⟩]

def addrPat5 : List Pat :=
  [⟨[RI.bnd], [RI.lit (chars ("gondar"))], [RI.bnd]⟩,
   ⟨[RI.bnd], [RI.lit (chars ("gonder"))], [RI.bnd]⟩]

def addrPat6 : List Pat :=
  [⟨[RI.bnd], [RI.lit (chars ("hawassa"))], [RI.bnd]⟩,
   ⟨[RI.bnd], [RI.lit (chars ("awassa"))], [RI.bnd]⟩]

def addrPat7 : List Pat :=
  [⟨[RI.bnd], [RI.lit (chars ("mekelle"))], [RI.bnd]⟩,
   ⟨[RI.bnd], [RI.lit (chars ("mekele"))], [RI.bnd]⟩]

def addrPat8 : List Pat :=
  [⟨[RI.bnd], [RI.lit (chars ("dire")), RI.star isSp, RI.lit (chars ("dawa"))],
    [RI.bnd]⟩]

def addrPat9 : List Pat :=
  [⟨[RI.bnd], [RI.lit (chars ("dessie"))], [RI.bnd]⟩,
   ⟨[RI.bnd], [RI.lit (chars ("dese"))], [RI.bnd]⟩]

def addrPat10 : List Pat :=
  [⟨[RI.bnd], [RI.lit (chars ("jimma"))], [RI.bnd]⟩,
   ⟨[RI.bnd], [RI.lit (chars ("jima"))], [RI.bnd]⟩]

def addrPat11 : List Pat :=
  [⟨[RI.bnd], [RI.lit (chars ("debre")), RI.star isSp, RI.lit (chars ("birhan"))],
    [RI.bnd]⟩]

def addrPat12 : List Pat :=
  [⟨[RI.bnd], [RI.lit (chars ("debre")), RI.star isSp, RI.lit (chars ("markos"))],
    [RI.bnd]⟩]

def addrPat13 : List Pat :=
  [⟨[RI.bnd], [RI.lit (chars ("woldia"))], [RI.bnd]⟩,
   ⟨[RI.bnd], [RI.lit (chars ("woldiya"))], [RI.bnd]⟩]

/-- Acceptance step of the address loop (lines 358-365): normalize and set
unconditionally. -/
def addrAccept (g : Str) : Option Str := some (normalize_address (pyStrip g))

def addrPats : List (List Pat × (Str → Option Str)) :=
  [(addrPat1, addrAccept), (addrPat2, addrAccept), (addrPat3, addrAccept),
   (addrPat4, addrAccept), (addrPat5, addrAccept), (addrPat6, addrAccept),
   (addrPat7, addrAccept), (addrPat8, addrAccept), (addrPat9, addrAccept),
   (addrPat10, addrAccept), (addrPat11, addrAccept), (addrPat12, addrAccept),
   (addrPat13, addrAccept)]

/-- The four kebele patterns of lines 370-375, in order. -/
def kebPat1 : List Pat :=
  [⟨[RI.lit (chars ("kebele")), RI.star colSp], [RI.rep isD 1 2], []⟩,
   ⟨[RI.lit (chars ("keb")), RI.star colSp], [RI.rep isD 1 2], []⟩]

def kebPat2 : List Pat :=
  [⟨[RI.lit (chars ("kebele")), RI.star isSp, RI.opt (chars ("#"))],
    [RI.rep isD 1 2], []⟩,
   ⟨[RI.lit (chars ("keb")), RI.star isSp, RI.opt (chars ("#"))],
    [RI.rep isD 1 2], []⟩]

def kebPat3 : List Pat :=
  [⟨[RI.lit (chars ("district")), RI.star colSp], [RI.rep isD 1 2], []⟩,
   ⟨[RI.lit (chars ("dist")), RI.star colSp], [RI.rep isD 1 2], []⟩]

def kebPat4 : List Pat :=
  [⟨[RI.bnd, RI.lit (chars ("keb")), RI.opt (chars (".")), RI.star isSp],
    [RI.rep isD 1 2], [RI.bnd]⟩]

/-- Acceptance step of the kebele loop (lines 377-391): pad a single digit
with a leading zero, then `validate_kebele`. -/
def kebAccept (g : Str) : Option Str :=
  let v := pyStrip g
  let v' := if pyFullDigits 1 v then ('0') :: v else v
  if validate_kebele v' then some v' else none

def kebPats : List (List Pat × (Str → Option Str)) :=
  [(kebPat1, kebAccept), (kebPat2, kebAccept), (kebPat3, kebAccept),
   (kebPat4, kebAccept)]

/-- A `\d{1,2} sep \d{1,2} sep \d{4}` capturing group. -/
def dateGroup (sep : Char) : List RI :=
  [RI.rep isD 1 2, RI.lit [sep], RI.rep isD 1 2, RI.lit [sep], RI.rep isD 4 4]

/-- The four date patterns of lines 396-401, in order. -/
def datePat1 : List Pat :=
  [⟨[RI.lit (chars ("date")), RI.star colSp], dateGroup ('/'), []⟩]

def datePat2 : List Pat := [⟨[], dateGroup ('/'), []⟩]

def datePat3 : List Pat := [⟨[], dateGroup ('-'), []⟩]

def datePat4 : List Pat := [⟨[], dateGroup ('.'), []⟩]

/-- Acceptance step of the date loop (lines 403-420): rewrite `-` and `.`
separators to `/`, validate, normalize. -/
def dateAccept (g : Str) : Option Str :=
  let v := pyStrip g
  let v1 := if v.contains ('-') then pyReplace ('-') ('/') v else v
  let v2 := if v1.contains ('.') then pyReplace ('.') ('/') v1 else v1
  if validate_ethiopian_date v2 then some (normalize_ethiopian_date v2)
  else none

def datePats : List (List Pat × (Str → Option Str)) :=
  [(datePat1, dateAccept), (datePat2, dateAccept), (datePat3, dateAccept),
   (datePat4, dateAccept)]

/-! ### Per-field fallbacks and the parse pipeline (lines 127-444) -/

/-- Patient-name fallback (lines 234-251). -/
def fbName (t : Str) : Option Str := scanPats t namePats

/-- Age fallback (lines 254-287): direct number, then the seven patterns,
then the last-resort `(\d+)` search whose `int(...)` is the one conversion
in the parser's `try` body not syntactically guarded by a digit check. -/
def fbAgeE (t : Str) : Except Unit (Option Str) :=
  if pyIsDigit (pyStrip t) then Except.ok (some (pyStrip t))
  else
    match scanPats t agePats with
    | some v => Except.ok (some v)
    | none =>
      match reSearch digitPat t with
      | some g => do
        let n ← pyInt g
        pure (if 0 < n && n < 120 then some g else none)
      | none => Except.ok none

/-- The age fallback after the parser boundary (used to state what the
returned record contains). -/
def fbAge (t : Str) : Option Str :=
  match fbAgeE t with
  | Except.ok a => a
  | Except.error _ => none

/-- Sex fallback (lines 290-313). -/
def fbSex (t : Str) : Option Str := scanPats t sexPats

/-- Telephone fallback (lines 316-337). -/
def fbTel (t : Str) : Option Str := scanPats t telPats

/-- Address fallback (lines 340-365). -/
def fbAddr (t : Str) : Option Str := scanPats t addrPats

/-- Kebele fallback (lines 368-391). -/
def fbKeb (t : Str) : Option Str := scanPats t kebPats

/-- Date fallback (lines 394-420). -/
def fbDate (t : Str) : Option Str := scanPats t datePats

/-- The fallback phase (lines 231-420): each `if result[...] is None` guard
mirrored from the source. -/
def fallbackFill (t : Str) (r : Rec) : Except Unit Rec := do
  let r1 := if r.PatientName = none then { r with PatientName := fbName t }
            else r
  let r2 ←
    if r1.Age = none then do
      let a ← fbAgeE t
      pure { r1 with Age := a }
    else pure r1
  let r3 := if r2.Sex = none then { r2 with Sex := fbSex t } else r2
  let r4 := if r3.Telephone = none then { r3 with Telephone := fbTel t }
            else r3
  let r5 := if r4.Address = none then { r4 with Address := fbAddr t } else r4
  let r6 := if r5.Kebele = none then { r5 with Kebele := fbKeb t } else r5
  let r7 := if r6.Date = none then { r6 with Date := fbDate t } else r6
  pure r7

/-- The body of `parse_extraction_result`'s `try` block (lines 137-440):
tagged extraction, the early-return gate, then the fallback phase. -/
def bodyE (t : Str) : Except Unit Rec :=
  if anyNonNull (taggedRec t) then Except.ok (taggedRec t)
  else fallbackFill t (taggedRec t)

/-- The `except` handler of lines 442-444: any internal failure becomes the
all-null record. -/
def recoverRec : Except Unit Rec → Rec
  | Except.ok r => r
  | Except.error _ => nullRec

/-- `parse_extraction_result` (lines 127-444). -/
def parse_extraction_result (s : String) : Rec := recoverRec (bodyE s.data)

/-! ### `validate_data` (lines 446-537) -/

def msgNameNotFound : Str := chars ("Patient name not found in the extracted data")

def msgNameTwo (p : Str) : Str :=
  chars ("Patient name '") ++ p ++ chars ("' doesn't contain both first and last name")

def msgAgeNotFound : Str := chars ("Age not found in the extracted data")

def msgAgeNotNum (a : Str) : Str := chars ("Age value is not a valid number: ") ++ a

def msgAgeRange (n : Nat) : Str :=
  chars ("Age value ") ++ natToStr n ++ chars (" is outside reasonable range")

def msgAgeExc : Str := chars ("Age value could not be validated")

def msgSexNotFound : Str := chars ("Sex not found in the extracted data")

def msgSexBad (s : Str) : Str :=
  chars ("Sex value '") ++ s ++ chars ("' is not 'M' or 'F'")

def msgTelBad (v : Str) : Str :=
  chars ("Telephone number '") ++ v ++ chars ("' is not exactly 10 digits")

def msgKebBad (v : Str) : Str :=
  chars ("Kebele '") ++ v ++ chars ("' is not valid (must be 01-17)")

def msgDateBad (v : Str) : Str :=
  chars ("Date '") ++ v ++ chars ("' is not valid (must be DD/MM/YYYY in Ethiopian calendar)")

/-- Patient-name check (lines 459-469): required, at least two words. -/
def vName (d : Rec) (acc : Bool × List Str) : Bool × List Str :=
  match d.PatientName with
  | none => (false, acc.2 ++ [msgNameNotFound])
  | some pn =>
    if pn.isEmpty then (false, acc.2 ++ [msgNameNotFound])
    else
      let p := pyStrip pn
      if (pySplitWs p).length < 2 then (false, acc.2 ++ [msgNameTwo p])
      else acc

/-- Age check (lines 471-490): required, all digits, strictly between
0 and 120. -/
def vAge (d : Rec) (acc : Bool × List Str) : Bool × List Str :=
  match d.Age with
  | none => (false, acc.2 ++ [msgAgeNotFound])
  | some a =>
    if a.isEmpty then (false, acc.2 ++ [msgAgeNotFound])
    else if !pyIsDigit a then (false, acc.2 ++ [msgAgeNotNum a])
    else
      match pyInt a with
      | Except.ok n =>
        if n ≤ 0 ∨ 120 ≤ n then (false, acc.2 ++ [msgAgeRange n]) else acc
      | Except.error _ => (false, acc.2 ++ [msgAgeExc])

/-- Sex check (lines 492-501): required, exactly "M" or "F". -/
def vSex (d : Rec) (acc : Bool × List Str) : Bool × List Str :=
  match d.Sex with
  | none => (false, acc.2 ++ [msgSexNotFound])
  | some sx =>
    if sx.isEmpty then (false, acc.2 ++ [msgSexNotFound])
    else if sx ≠ chars ("M") ∧ sx ≠ chars ("F") then
      (false, acc.2 ++ [msgSexBad sx])
    else acc

/-- Telephone check (lines 503-513): optional; if present, 10 digits (the
"09" prefix mismatch only logs a warning). -/
def vTel (d : Rec) (acc : Bool × List Str) : Bool × List Str :=
  match d.Telephone with
  | none => acc
  | some v =>
    if v.isEmpty then acc
    else if !pyFullDigits 10 v then (false, acc.2 ++ [msgTelBad v])
    else acc

/-- Kebele check (lines 515-521): optional; if present, `validate_kebele`. -/
def vKeb (d : Rec) (acc : Bool × List Str) : Bool × List Str :=
  match d.Kebele with
  | none => acc
  | some v =>
    if v.isEmpty then acc
    else if !validate_kebele v then (false, acc.2 ++ [msgKebBad v])
    else acc

/-- Date check (lines 523-529): optional; if present,
`validate_ethiopian_date`. -/
def vDate (d : Rec) (acc : Bool × List Str) : Bool × List Str :=
  match d.Date with
  | none => acc
  | some v =>
    if v.isEmpty then acc
    else if !validate_ethiopian_date v then (false, acc.2 ++ [msgDateBad v])
    else acc

/-- `validate_data` (lines 446-537): the six checks in their fixed source
order — name, age, sex, telephone, kebele, date. -/
def validate_data (d : Rec) : Bool × List Str :=
  vDate d (vKeb d (vTel d (vSex d (vAge d (vName d (true, []))))))

/-! State-threaded rendering of `validate_data`: the Python function
receives the record (a dict) and only ever reads it with `data.get`; each
check below passes the record through unchanged alongside the
accumulator. -/

def vNameSt (x : Rec × (Bool × List Str)) : Rec × (Bool × List Str) :=
  (x.1, vName x.1 x.2)

def vAgeSt (x : Rec × (Bool × List Str)) : Rec × (Bool × List Str) :=
  (x.1, vAge x.1 x.2)

def vSexSt (x : Rec × (Bool × List Str)) : Rec × (Bool × List Str) :=
  (x.1, vSex x.1 x.2)

def vTelSt (x : Rec × (Bool × List Str)) : Rec × (Bool × List Str) :=
  (x.1, vTel x.1 x.2)

def vKebSt (x : Rec × (Bool × List Str)) : Rec × (Bool × List Str) :=
  (x.1, vKeb x.1 x.2)

def vDateSt (x : Rec × (Bool × List Str)) : Rec × (Bool × List Str) :=
  (x.1, vDate x.1 x.2)

/-- `validate_data` with the record state threaded through every check;
its first component is the record as left behind by the call. -/
def validate_data_st (d : Rec) : Rec × (Bool × List Str) :=
  vDateSt (vKebSt (vTelSt (vSexSt (vAgeSt (vNameSt (d, (true, [])))))))

/-! Per-field diagnostic message of `validate_data`, used to state the
fixed order of the accumulated message list. -/

def msgName (d : Rec) : Option Str :=
  match d.PatientName with
  | none => some msgNameNotFound
  | some pn =>
    if pn.isEmpty then some msgNameNotFound
    else
      let p := pyStrip pn
      if (pySplitWs p).length < 2 then some (msgNameTwo p) else none

def msgAge (d : Rec) : Option Str :=
  match d.Age with
  | none => some msgAgeNotFound
  | some a =>
    if a.isEmpty then some msgAgeNotFound
    else if !pyIsDigit a then some (msgAgeNotNum a)
    else
      match pyInt a with
      | Except.ok n => if n ≤ 0 ∨ 120 ≤ n then some (msgAgeRange n) else none
      | Except.error _ => some msgAgeExc

def msgSex (d : Rec) : Option Str :=
  match d.Sex with
  | none => some msgSexNotFound
  | some sx =>
    if sx.isEmpty then some msgSexNotFound
    else if sx ≠ chars ("M") ∧ sx ≠ chars ("F") then some (msgSexBad sx)
    else none

def msgTel (d : Rec) : Option Str :=
  match d.Telephone with
  | none => none
  | some v =>
    if v.isEmpty then none
    else if !pyFullDigits 10 v then some (msgTelBad v) else none

def msgKeb (d : Rec) : Option Str :=
  match d.Kebele with
  | none => none
  | some v =>
    if v.isEmpty then none
    else if !validate_kebele v then some (msgKebBad v) else none

def msgDate (d : Rec) : Option Str :=
  match d.Date with
  | none => none
  | some v =>
    if v.isEmpty then none
    else if !validate_ethiopian_date v then some (msgDateBad v) else none

/-- Spec-style shape of a kebele value accepted by the non-blank branch of
`validate_kebele`: two digits with value in [1,17], optionally followed by
one trailing newline (Python's `$`). -/
def kebShape (s : Str) : Bool :=
  match s with
  | [a, b] =>
    isD a && isD b &&
    decide (1 ≤ 10 * (a.toNat - 48) + (b.toNat - 48)) &&
    decide (10 * (a.toNat - 48) + (b.toNat - 48) ≤ 17)
  | [a, b, c] =>
    decide (c = ('\n')) && isD a && isD b &&
    decide (1 ≤ 10 * (a.toNat - 48) + (b.toNat - 48)) &&
    decide (10 * (a.toNat - 48) + (b.toNat - 48) ≤ 17)
  | _ => false

/-! ## Helper lemmas -/

lemma toNat_ofNat_valid (n : Nat) (h : n < 55296) : (Char.ofNat n).toNat = n := by
  have hv : n.isValidChar := Or.inl h
  simp [Char.ofNat, dif_pos hv, Char.ofNatAux, Char.toNat, UInt32.toNat,
    BitVec.toNat_ofNatLt]

lemma isSp_lowC (c : Char) : isSp (lowC c) = isSp c := by
  unfold lowC
  split
  · rename_i h
    have ht : (Char.ofNat (c.toNat + 32)).toNat = c.toNat + 32 :=
      toNat_ofNat_valid _ (by omega)
    have h2 : isSp (Char.ofNat (c.toNat + 32)) = false := by
      simp only [isSp, ht, Bool.or_eq_false_iff, decide_eq_false_iff_not]
      omega
    have h3 : isSp c = false := by
      simp only [isSp, Bool.or_eq_false_iff, decide_eq_false_iff_not]
      omega
    rw [h2, h3]
  · rfl

lemma isD_lowC (c : Char) : isD (lowC c) = isD c := by
  unfold lowC
  split
  · rename_i h
    have ht : (Char.ofNat (c.toNat + 32)).toNat = c.toNat + 32 :=
      toNat_ofNat_valid _ (by omega)
    have h2 : isD (Char.ofNat (c.toNat + 32)) = false := by
      simp only [isD, ht, Bool.and_eq_false_iff, decide_eq_false_iff_not]
      omega
    have h3 : isD c = false := by
      simp only [isD, Bool.and_eq_false_iff, decide_eq_false_iff_not]
      omega
    rw [h2, h3]
  · rfl

lemma trimL_lower (l : Str) : trimL (pyLower l) = pyLower (trimL l) := by
  unfold trimL pyLower
  rw [List.dropWhile_map]
  have : (isSp ∘ lowC) = isSp := funext fun c => isSp_lowC c
  rw [this]

lemma trimR_lower (l : Str) : trimR (pyLower l) = pyLower (trimR l) := by
  unfold trimR pyLower
  rw [← List.map_reverse, List.dropWhile_map]
  have : (isSp ∘ lowC) = isSp := funext fun c => isSp_lowC c
  rw [this, ← List.map_reverse]

lemma pyStrip_lower (l : Str) : pyStrip (pyLower l) = pyLower (pyStrip l) := by
  unfold pyStrip
  rw [trimL_lower, trimR_lower]

lemma dropWhile_idem (p : α → Bool) (l : List α) :
    List.dropWhile p (List.dropWhile p l) = List.dropWhile p l := by
  induction l with
  | nil => rfl
  | cons c cs ih =>
    by_cases h : p c
    · simp [List.dropWhile_cons, h, ih]
    · simp [List.dropWhile_cons, h]

lemma trimL_idem (l : Str) : trimL (trimL l) = trimL l := dropWhile_idem _ _

lemma trimR_idem (l : Str) : trimR (trimR l) = trimR l := by
  unfold trimR
  rw [List.reverse_reverse, dropWhile_idem]

lemma head_trimL_not_sp (l : Str) (c : Char) (h : (trimL l).head? = some c) :
    isSp c = false := by
  unfold trimL at h
  induction l with
  | nil => simp at h
  | cons a as ih =>
    by_cases ha : isSp a
    · rw [List.dropWhile_cons_of_pos ha] at h; exact ih h
    · rw [List.dropWhile_cons_of_neg ha] at h
      simp at h
      subst h
      simpa using ha

lemma trimL_eq_self_of_head (l : Str)
    (h : ∀ c, l.head? = some c → isSp c = false) : trimL l = l := by
  unfold trimL
  cases l with
  | nil => rfl
  | cons a as =>
    rw [List.dropWhile_cons_of_neg]
    simp [h a rfl]

lemma trimR_suffix (l : Str) : ∃ w, l = trimR l ++ w ∧ w.all isSp := by
  refine ⟨(l.reverse.takeWhile isSp).reverse, ?_, ?_⟩
  · unfold trimR
    rw [← List.reverse_append, List.takeWhile_append_dropWhile,
      List.reverse_reverse]
  · rw [List.all_eq_true]
    intro x hx
    rw [List.mem_reverse] at hx
    exact List.mem_takeWhile_imp hx

lemma trimL_trimR_of_trimL (l : Str) (h : trimL l = l) :
    trimL (trimR l) = trimR l := by
  apply trimL_eq_self_of_head
  intro c hc
  obtain ⟨w, hw, _⟩ := trimR_suffix l
  have : l.head? = some c := by
    rw [hw]
    cases htr : trimR l with
    | nil => rw [htr] at hc; simp at hc
    | cons x xs =>
      rw [htr] at hc
      simp at hc ⊢
      exact hc
  cases l with
  | nil => simp at this
  | cons a as =>
    simp at this
    subst this
    by_cases ha : isSp a
    · unfold trimL at h
      rw [List.dropWhile_cons_of_pos ha] at h
      have hlen := congrArg List.length h
      simp at hlen
      have hle := (List.dropWhile_sublist (l := as) isSp).length_le
      omega
    · simpa using ha

lemma pyStrip_idem (l : Str) : pyStrip (pyStrip l) = pyStrip l := by
  unfold pyStrip
  rw [trimL_trimR_of_trimL (trimL l) (trimL_idem l), trimR_idem]

lemma descendFrom_some (att : Nat → Option Str) (lo : Nat) :
    ∀ i r, descendFrom att lo i = some r →
      ∃ j, lo ≤ j ∧ j ≤ i ∧ att j = some r := by
  intro i
  induction i with
  | zero =>
    intro r h
    simp only [descendFrom] at h
    by_cases hlo : lo = 0
    · exact ⟨0, by omega, by omega, by simpa [hlo] using h⟩
    · simp [hlo] at h
  | succ n ih =>
    intro r h
    simp only [descendFrom] at h
    by_cases hlo : lo ≤ n + 1
    · rw [if_pos hlo] at h
      cases ha : att (n + 1) with
      | some v =>
        rw [ha] at h
        simp at h
        exact ⟨n + 1, hlo, le_refl _, by rw [ha, h]⟩
      | none =>
        rw [ha] at h
        obtain ⟨j, h1, h2, h3⟩ := ih r h
        exact ⟨j, h1, by omega, h3⟩
    · rw [if_neg hlo] at h; exact absurd h (by simp)

lemma isSp_of_isD (c : Char) (h : isD c = true) : isSp c = false := by
  simp only [isD, Bool.and_eq_true, decide_eq_true_eq] at h
  simp only [isSp, Bool.or_eq_false_iff, decide_eq_false_iff_not]
  omega

lemma pyStrip_of_digits (g : Str) (h : g.all isD = true) : pyStrip g = g := by
  have hL : trimL g = g := by
    unfold trimL
    cases g with
    | nil => rfl
    | cons c cs =>
      simp only [List.all_cons, Bool.and_eq_true] at h
      rw [List.dropWhile_cons_of_neg]
      simp [isSp_of_isD c h.1]
  have hR : trimR g = g := by
    unfold trimR
    have : g.reverse.dropWhile isSp = g.reverse := by
      cases hg : g.reverse with
      | nil => rfl
      | cons c cs =>
        have hc : isD c = true := by
          have : c ∈ g := by
            rw [← List.mem_reverse, hg]; exact List.mem_cons_self c cs
          exact (List.all_eq_true.mp h) c this
        rw [List.dropWhile_cons_of_neg]
        simp [isSp_of_isD c hc]
    rw [this, List.reverse_reverse]
  unfold pyStrip
  rw [hL, hR]

lemma pyInt_digits (g : Str) (h1 : g ≠ []) (h2 : g.all isD = true) :
    pyInt g = Except.ok (digitsToNat g) := by
  unfold pyInt
  rw [pyStrip_of_digits g h2]
  have : (!g.isEmpty && g.all isD) = true := by
    simp [h2, List.isEmpty_iff, h1]
  simp [this]

lemma take_cw_digits (s : Str) (j : Nat) (hj : j ≤ cw isD s) :
    (s.take j).all isD = true := by
  rw [List.all_eq_true]
  intro c hc
  have hmem : c ∈ (s.takeWhile fun c => isD (lowC c)).take j := by
    have hpre : s.take j = (s.takeWhile fun c => isD (lowC c)).take j := by
      conv_lhs =>
        rw [← List.takeWhile_append_dropWhile
          (p := fun c => isD (lowC c)) (l := s)]
      rw [List.take_append_of_le_length hj]
    rwa [hpre] at hc
  have := List.mem_takeWhile_imp (List.mem_of_mem_take hmem)
  rwa [isD_lowC] at this

lemma cw_le_length (p : Char → Bool) (s : Str) : cw p s ≤ s.length := by
  unfold cw
  exact (List.takeWhile_sublist _).length_le

lemma mpat_digit (prev : Option Char) (s g : Str)
    (h : mpat ⟨[], [RI.plus isD], []⟩ prev s = some g) :
    g ≠ [] ∧ g.all isD = true := by
  simp only [mpat, mseq] at h
  obtain ⟨j, hj1, hj2, hj⟩ := descendFrom_some _ _ _ _ h
  simp only [Option.some.injEq] at hj
  have hjlen : j ≤ s.length := le_trans hj2 (cw_le_length _ _)
  have htake : s.length - (s.drop j).length = j := by
    rw [List.length_drop]
    omega
  rw [htake] at hj
  subst hj
  constructor
  · intro hg
    have h0 : (s.take j).length = 0 := by rw [hg]; rfl
    rw [List.length_take] at h0
    omega
  · exact take_cw_digits s j hj2

lemma searchFrom_digit : ∀ (s : Str) (prev : Option Char) (g : Str),
    searchFrom digitPat prev s = some g → g ≠ [] ∧ g.all isD = true := by
  intro s
  induction s with
  | nil =>
    intro prev g h
    simp only [searchFrom, digitPat, tryBranches] at h
    cases hm : mpat ⟨[], [RI.plus isD], []⟩ prev [] with
    | some v =>
      rw [hm] at h
      simp at h
      exact h ▸ mpat_digit prev [] v hm
    | none => rw [hm] at h; simp at h
  | cons c cs ih =>
    intro prev g h
    simp only [searchFrom, digitPat, tryBranches] at h
    cases hm : mpat ⟨[], [RI.plus isD], []⟩ prev (c :: cs) with
    | some v =>
      rw [hm] at h
      simp at h
      exact h ▸ mpat_digit prev (c :: cs) v hm
    | none =>
      rw [hm] at h
      exact ih (some c) g h

lemma fbAgeE_ok (t : Str) : fbAgeE t = Except.ok (fbAge t) := by
  unfold fbAge fbAgeE
  by_cases hd : pyIsDigit (pyStrip t) = true
  · simp [hd]
  · rw [if_neg hd]
    cases hs : scanPats t agePats with
    | some v => simp
    | none =>
      cases hg : reSearch digitPat t with
      | some g =>
        have ⟨h1, h2⟩ := searchFrom_digit t none g hg
        simp [pyInt_digits g h1 h2, Except.bind]
      | none => simp

lemma isSome_false_eq_none {α : Type} (x : Option α) (h : x.isSome = false) :
    x = none := by
  cases x with
  | none => rfl
  | some v => simp at h

lemma anyNonNull_false_eq (r : Rec) (h : anyNonNull r = false) : r = nullRec := by
  cases r with
  | mk a b c d e f g =>
    simp only [anyNonNull, Bool.or_eq_false_iff] at h
    obtain ⟨⟨⟨⟨⟨⟨h1, h2⟩, h3⟩, h4⟩, h5⟩, h6⟩, h7⟩ := h
    rw [nullRec]
    rw [isSome_false_eq_none _ h1, isSome_false_eq_none _ h2,
        isSome_false_eq_none _ h3, isSome_false_eq_none _ h4,
        isSome_false_eq_none _ h5, isSome_false_eq_none _ h6,
        isSome_false_eq_none _ h7]

lemma fallbackFill_nullRec (t : Str) :
    fallbackFill t nullRec =
      Except.ok ⟨fbName t, fbAge t, fbSex t, fbTel t, fbAddr t, fbKeb t,
        fbDate t⟩ := by
  simp [fallbackFill, nullRec, fbAgeE_ok t, Except.bind, bind, pure, Except.pure]

lemma parse_eq_tagged (t : String) (h : anyNonNull (taggedRec t.data) = true) :
    parse_extraction_result t = taggedRec t.data := by
  unfold parse_extraction_result bodyE recoverRec
  simp [h]

lemma parse_eq_fallback (t : String)
    (h : anyNonNull (taggedRec t.data) = false) :
    parse_extraction_result t =
      ⟨fbName t.data, fbAge t.data, fbSex t.data, fbTel t.data, fbAddr t.data,
       fbKeb t.data, fbDate t.data⟩ := by
  unfold parse_extraction_result bodyE
  have he : taggedRec t.data = nullRec := anyNonNull_false_eq _ h
  rw [he, if_neg (by decide), fallbackFill_nullRec]
  rfl

lemma bodyE_ok (t : String) :
    bodyE t.data = Except.ok (parse_extraction_result t) := by
  cases hg : anyNonNull (taggedRec t.data) with
  | true =>
    rw [parse_eq_tagged t hg]
    unfold bodyE
    rw [if_pos hg]
  | false =>
    rw [parse_eq_fallback t hg]
    unfold bodyE
    have he : taggedRec t.data = nullRec := anyNonNull_false_eq _ hg
    rw [he, if_neg (by decide), fallbackFill_nullRec]


lemma vName_eq (d : Rec) (acc : Bool × List Str) :
    vName d acc = (acc.1 && (msgName d).isNone, acc.2 ++ (msgName d).toList) := by
  unfold vName msgName
  cases d.PatientName with
  | none => simp
  | some pn =>
    by_cases hp : pn.isEmpty = true
    · simp [hp]
    · simp only [hp, Bool.false_eq_true, if_false]
      split <;> simp

lemma vAge_eq (d : Rec) (acc : Bool × List Str) :
    vAge d acc = (acc.1 && (msgAge d).isNone, acc.2 ++ (msgAge d).toList) := by
  unfold vAge msgAge
  cases d.Age with
  | none => simp
  | some a =>
    by_cases hp : a.isEmpty = true
    · simp [hp]
    · simp only [hp, Bool.false_eq_true, if_false]
      by_cases hd : pyIsDigit a = true
      · simp only [hd, Bool.not_true, Bool.false_eq_true, if_false]
        cases hi : pyInt a with
        | ok n =>
          split
          · rename_i m heq
            cases heq
            split <;> simp
          · rename_i e heq
            simp at heq
        | error e => simp
      · simp [hd]

lemma vSex_eq (d : Rec) (acc : Bool × List Str) :
    vSex d acc = (acc.1 && (msgSex d).isNone, acc.2 ++ (msgSex d).toList) := by
  unfold vSex msgSex
  cases d.Sex with
  | none => simp
  | some sx =>
    by_cases hp : sx.isEmpty = true
    · simp [hp]
    · simp only [hp, Bool.false_eq_true, if_false]
      split <;> simp

lemma vTel_eq (d : Rec) (acc : Bool × List Str) :
    vTel d acc = (acc.1 && (msgTel d).isNone, acc.2 ++ (msgTel d).toList) := by
  unfold vTel msgTel
  cases d.Telephone with
  | none => simp
  | some v =>
    by_cases hp : v.isEmpty = true
    · simp [hp]
    · simp only [hp, Bool.false_eq_true, if_false]
      split <;> simp

lemma vKeb_eq (d : Rec) (acc : Bool × List Str) :
    vKeb d acc = (acc.1 && (msgKeb d).isNone, acc.2 ++ (msgKeb d).toList) := by
  unfold vKeb msgKeb
  cases d.Kebele with
  | none => simp
  | some v =>
    by_cases hp : v.isEmpty = true
    · simp [hp]
    · simp only [hp, Bool.false_eq_true, if_false]
      split <;> simp

lemma vDate_eq (d : Rec) (acc : Bool × List Str) :
    vDate d acc = (acc.1 && (msgDate d).isNone, acc.2 ++ (msgDate d).toList) := by
  unfold vDate msgDate
  cases d.Date with
  | none => simp
  | some v =>
    by_cases hp : v.isEmpty = true
    · simp [hp]
    · simp only [hp, Bool.false_eq_true, if_false]
      split <;> simp

lemma validate_data_msgs (d : Rec) :
    (validate_data d).2 =
      List.filterMap id
        [msgName d, msgAge d, msgSex d, msgTel d, msgKeb d, msgDate d] := by
  unfold validate_data
  rw [vDate_eq, vKeb_eq, vTel_eq, vSex_eq, vAge_eq, vName_eq]
  simp only []
  cases msgName d <;> cases msgAge d <;> cases msgSex d <;> cases msgTel d <;>
    cases msgKeb d <;> cases msgDate d <;> simp [List.filterMap]


lemma na_idem (a : Str) :
    normalize_address (normalize_address a) = normalize_address a := by
  by_cases he : a.isEmpty = true
  · have h1 : normalize_address a = a := by unfold normalize_address; simp [he]
    rw [h1]; exact h1
  · by_cases hb : bdScan none (pyStrip (pyLower a)) = true
    · have h1 : normalize_address a = chars ("Bahir Dar") := by
        unfold normalize_address; simp [he, hb]
      rw [h1]; decide
    · have hb' : bdScan none (pyStrip (pyLower a)) = false :=
        Bool.eq_false_iff.mpr hb
      have h1 : normalize_address a = pyStrip a := by
        unfold normalize_address; simp [he, hb']
      rw [h1]
      by_cases he2 : (pyStrip a).isEmpty = true
      · unfold normalize_address; simp [he2]
      · have hsc : pyStrip (pyLower (pyStrip a)) = pyStrip (pyLower a) := by
          rw [pyStrip_lower, pyStrip_idem, ← pyStrip_lower]
        have hb2 : bdScan none (pyStrip (pyLower (pyStrip a))) = false := by
          rw [hsc]; exact hb'
        unfold normalize_address
        simp [he2, hb2, pyStrip_idem]

lemma na_notfound (a : Str) (h : bdScan none (pyStrip (pyLower a)) = false) :
    normalize_address a = pyStrip a := by
  by_cases he : a.isEmpty = true
  · have ha : a = [] := by cases a with | nil => rfl | cons x xs => simp at he
    rw [ha]; rfl
  · unfold normalize_address; simp [he, h]

lemma dropWhile_nil_of_all (p : α → Bool) (l : List α) (h : l.all p = true) :
    l.dropWhile p = [] := by
  induction l with
  | nil => rfl
  | cons a as ih =>
    simp only [List.all_cons, Bool.and_eq_true] at h
    rw [List.dropWhile_cons_of_pos h.1]
    exact ih h.2

lemma all_digits_dateShape_false (c : Str) (h : c.all isD = true) :
    dateShape c = false := by
  unfold dateShape
  rw [dropWhile_nil_of_all isD c h]
  simp

lemma validate_date_of_digits (c : Str) (h : c.all isD = true) :
    validate_ethiopian_date c = false := by
  unfold validate_ethiopian_date
  by_cases he : c.isEmpty = true
  · rw [if_pos he]
  · rw [if_neg he, all_digits_dateShape_false c h]
    simp

lemma taggedDate_none (t c : Str)
    (he : extractTag (chars ("date")) t = some c)
    (hv : validate_ethiopian_date (pyStrip c) = false) :
    (taggedRec t).Date = none := by
  show taggedDate t = none
  unfold taggedDate
  rw [he]
  by_cases hp : (pyStrip c).isEmpty = true <;> simp [hp, hv]

lemma validate_date_bounds (s : Str) (d m y : Nat)
    (ht : pyDateTriple s = some (d, m, y))
    (hv : validate_ethiopian_date s = true) :
    1 ≤ d ∧ d ≤ 30 ∧ 1 ≤ m ∧ m ≤ 13 ∧ 1000 ≤ y ∧ y ≤ 9999 ∧
      (m = 13 → d ≤ 6) := by
  unfold validate_ethiopian_date at hv
  unfold pyDateTriple at ht
  by_cases he : s.isEmpty = true
  · rw [if_pos he] at hv; simp at hv
  · rw [if_neg he] at hv
    by_cases hs : dateShape s = true
    · rw [if_pos hs] at ht
      simp only [hs, Bool.not_true, Bool.false_eq_true, if_false] at hv
      split at hv
      · rename_i x a b c heq
        rw [heq] at ht
        have ht2 : (match pyInt a, pyInt b, pyInt c with
            | Except.ok dd, Except.ok mm, Except.ok yy => some (dd, mm, yy)
            | _, _, _ => none) = some (d, m, y) := ht
        cases h1 : pyInt a with
        | error e => rw [h1] at hv; simp at hv
        | ok dd =>
          cases h2 : pyInt b with
          | error e => rw [h1, h2] at hv; simp at hv
          | ok mm =>
            cases h3 : pyInt c with
            | error e => rw [h1, h2, h3] at hv; simp at hv
            | ok yy =>
              rw [h1, h2, h3] at hv ht2
              have hv2 : (if (!(decide (1 ≤ dd) && decide (dd ≤ 30) &&
                  decide (1 ≤ mm) && decide (mm ≤ 13) && decide (1000 ≤ yy) &&
                  decide (yy ≤ 9999))) = true then false
                else if (decide (mm = 13) && decide (6 < dd)) = true then false
                else true) = true := hv
              simp only [Option.some.injEq, Prod.mk.injEq] at ht2
              obtain ⟨hd1, hm1, hy1⟩ := ht2
              rw [hd1, hm1, hy1] at hv2
              by_cases hc :
                  (decide (1 ≤ d) && decide (d ≤ 30) && decide (1 ≤ m) &&
                   decide (m ≤ 13) && decide (1000 ≤ y) &&
                   decide (y ≤ 9999)) = true
              · simp only [Bool.and_eq_true, decide_eq_true_eq] at hc
                obtain ⟨⟨⟨⟨⟨b1, b2⟩, b3⟩, b4⟩, b5⟩, b6⟩ := hc
                refine ⟨b1, b2, b3, b4, b5, b6, ?_⟩
                intro hm13
                by_contra hd6
                have hbad : (decide (m = 13) && decide (6 < d)) = true := by
                  simp only [Bool.and_eq_true, decide_eq_true_eq]
                  exact ⟨hm13, by omega⟩
                rw [if_neg (by simp_all), if_pos hbad] at hv2
                simp at hv2
              · rw [if_pos (by simp_all)] at hv2
                simp at hv2
      · simp at hv
    · have hs2 : dateShape s = false := Bool.eq_false_iff.mpr hs
      rw [hs2] at hv
      simp at hv


lemma pyStrip_two_digit_nl (a b : Char) (ha : isD a = true) (hb : isD b = true) :
    pyStrip [a, b, ('\n')] = [a, b] := by
  unfold pyStrip trimL trimR
  rw [List.dropWhile_cons_of_neg (by simp [isSp_of_isD a ha])]
  rw [show ([a, b, ('\n')] : Str).reverse = [('\n'), b, a] from rfl]
  rw [List.dropWhile_cons_of_pos (by decide)]
  rw [List.dropWhile_cons_of_neg (by simp [isSp_of_isD b hb])]
  rfl

lemma digitsToNat_two (a b : Char) :
    digitsToNat [a, b] = 10 * (a.toNat - 48) + (b.toNat - 48) := by
  simp [digitsToNat, List.foldl]
  omega

lemma validate_kebele_eq (s : Str) :
    validate_kebele s = ((pyStrip s).isEmpty || kebShape s) := by
  unfold validate_kebele
  by_cases hE : (s.isEmpty || (pyStrip s).isEmpty) = true
  · rw [if_pos hE]
    rcases Bool.or_eq_true_iff.mp hE with h | h
    · have : s = [] := by cases s with | nil => rfl | cons x xs => simp at h
      subst this
      rfl
    · rw [h]
      rfl
  · rw [if_neg hE]
    have hE2 : s.isEmpty = false ∧ (pyStrip s).isEmpty = false := by
      rcases h1 : s.isEmpty <;> rcases h2 : (pyStrip s).isEmpty <;> simp_all
    obtain ⟨hs1, hs2⟩ := hE2
    rw [hs2, Bool.false_or]
    match s with
    | [] => simp at hs1
    | [a] =>
      have hf : pyFullDigits 2 [a] = false := by simp [pyFullDigits]
      rw [hf]
      rfl
    | [a, b] =>
      cases hd : (isD a && isD b) with
      | true =>
        obtain ⟨ha, hb⟩ := Bool.and_eq_true_iff.mp hd
        have hf : pyFullDigits 2 [a, b] = true := by
          simp [pyFullDigits, ha, hb]
        rw [hf, if_neg (by decide)]
        have hall : ([a, b] : Str).all isD = true := by simp [ha, hb]
        rw [pyInt_digits [a, b] (by simp) hall]
        show (decide (1 ≤ digitsToNat [a, b]) &&
          decide (digitsToNat [a, b] ≤ 17)) = kebShape [a, b]
        rw [digitsToNat_two]
        simp [kebShape, ha, hb]
      | false =>
        rcases Bool.and_eq_false_iff.mp hd with h | h
        · have hf : pyFullDigits 2 [a, b] = false := by simp [pyFullDigits, h]
          have hk : kebShape [a, b] = false := by simp [kebShape, h]
          rw [hf, hk]
          rfl
        · have hf : pyFullDigits 2 [a, b] = false := by simp [pyFullDigits, h]
          have hk : kebShape [a, b] = false := by simp [kebShape, h]
          rw [hf, hk]
          rfl
    | [a, b, c] =>
      cases hc : decide (c = ('\n')) with
      | true =>
        have hc2 : c = ('\n') := of_decide_eq_true hc
        subst hc2
        cases hd : (isD a && isD b) with
        | true =>
          obtain ⟨ha, hb⟩ := Bool.and_eq_true_iff.mp hd
          have hf : pyFullDigits 2 [a, b, ('\n')] = true := by
            simp [pyFullDigits, ha, hb]
          rw [hf, if_neg (by decide)]
          have hk : pyInt [a, b, ('\n')] =
              Except.ok (digitsToNat [a, b]) := by
            unfold pyInt
            rw [pyStrip_two_digit_nl a b ha hb]
            simp [ha, hb]
          rw [hk]
          show (decide (1 ≤ digitsToNat [a, b]) &&
            decide (digitsToNat [a, b] ≤ 17)) = kebShape [a, b, ('\n')]
          rw [digitsToNat_two]
          simp [kebShape, ha, hb]
        | false =>
          rcases Bool.and_eq_false_iff.mp hd with h | h
          · have hf : pyFullDigits 2 [a, b, ('\n')] = false := by
              simp [pyFullDigits, h]
            have hk : kebShape [a, b, ('\n')] = false := by
              simp [kebShape, h]
            rw [hf, hk]
            rfl
          · have hf : pyFullDigits 2 [a, b, ('\n')] = false := by
              simp [pyFullDigits, h]
            have hk : kebShape [a, b, ('\n')] = false := by
              simp [kebShape, h]
            rw [hf, hk]
            rfl
      | false =>
        have hc2 : ¬(c = ('\n')) := of_decide_eq_false hc
        have hf : pyFullDigits 2 [a, b, c] = false := by
          simp [pyFullDigits, hc2]
        have hk : kebShape [a, b, c] = false := by
          simp [kebShape, hc2]
        rw [hf, hk]
        rfl
    | a :: b :: c :: e :: l =>
      have hf : pyFullDigits 2 (a :: b :: c :: e :: l) = false := by
        have h1 : (a :: b :: c :: e :: l).length = l.length + 4 := by simp
        simp only [pyFullDigits, h1, Bool.or_eq_false_iff,
          Bool.and_eq_false_iff]
        constructor
        · left; simp
        · left; simp
      rw [hf]
      rfl


/-! ## Claim theorems -/

/-- C1 (amended): in tagged extraction, a value failing the field's check is
discarded for the five validated fields — Sex (not "M"/"F"), Telephone (not
10 digits), Address (empty), Kebele (non-blank and invalid), Date (failing
the Ethiopian-date validator) — and, provided at least one field was
obtained from a tag (the early-return gate), the discarded field is null in
the returned record; PatientName and Age tagged values are stored verbatim
(stripped) without any validation. -/
theorem c1_tagged_invalid_discard (t : String) :
    (∀ c, extractTag (chars ("patient_name")) t.data = some c →
      (taggedRec t.data).PatientName = some (pyStrip c)) ∧
    (∀ c, extractTag (chars ("age")) t.data = some c →
      (taggedRec t.data).Age = some (pyStrip c)) ∧
    (∀ c, extractTag (chars ("sex")) t.data = some c →
      (pyStrip c = chars ("M") || pyStrip c = chars ("F")) = false →
      (taggedRec t.data).Sex = none) ∧
    (∀ c, extractTag (chars ("telephone")) t.data = some c →
      pyFullDigits 10 (pyStrip c) = false →
      (taggedRec t.data).Telephone = none) ∧
    (∀ c, extractTag (chars ("address")) t.data = some c →
      (pyStrip c).isEmpty = true →
      (taggedRec t.data).Address = none) ∧
    (∀ c, extractTag (chars ("kebele")) t.data = some c →
      (pyStrip c).isEmpty = false → validate_kebele (pyStrip c) = false →
      (taggedRec t.data).Kebele = none) ∧
    (∀ c, extractTag (chars ("date")) t.data = some c →
      validate_ethiopian_date (pyStrip c) = false →
      (taggedRec t.data).Date = none) ∧
    (anyNonNull (taggedRec t.data) = true →
      parse_extraction_result t = taggedRec t.data) := by
  refine ⟨?_, ?_, ?_, ?_, ?_, ?_, ?_, parse_eq_tagged t⟩
  · intro c h
    show taggedName t.data = some (pyStrip c)
    unfold taggedName
    rw [h]
    rfl
  · intro c h
    show taggedAge t.data = some (pyStrip c)
    unfold taggedAge
    rw [h]
    rfl
  · intro c h hcond
    show taggedSex t.data = none
    unfold taggedSex
    rw [h]
    simp only [Bool.or_eq_false_iff, decide_eq_false_iff_not] at hcond
    simp [hcond.1, hcond.2]
  · intro c h hcond
    show taggedTelephone t.data = none
    unfold taggedTelephone
    rw [h]
    simp [hcond]
  · intro c h hcond
    show taggedAddress t.data = none
    unfold taggedAddress
    rw [h]
    rw [List.isEmpty_iff] at hcond
    simp [hcond]
  · intro c h hcond1 hcond2
    show taggedKebele t.data = none
    unfold taggedKebele
    rw [h]
    have hne : pyStrip c ≠ [] := fun hh => by
      rw [hh] at hcond1
      simp at hcond1
    simp [hne, hcond2]
  · intro c h hcond
    exact taggedDate_none t.data c h hcond

/-- C1 witness: a concrete input whose seven tags carry, respectively, a
verbatim-stored name and age and five invalid values; all hypotheses of the
theorem are discharged on it. -/
theorem c1_witness :
    (parse_extraction_result ("<patient_name>A</patient_name><age>abc</age><sex>male</sex><telephone>123</telephone><address> </address><kebele>5</kebele><date>31/1/2015</date>")).PatientName = some (chars ("A")) ∧
    (parse_extraction_result ("<patient_name>A</patient_name><age>abc</age><sex>male</sex><telephone>123</telephone><address> </address><kebele>5</kebele><date>31/1/2015</date>")).Age = some (chars ("abc")) ∧
    (parse_extraction_result ("<patient_name>A</patient_name><age>abc</age><sex>male</sex><telephone>123</telephone><address> </address><kebele>5</kebele><date>31/1/2015</date>")).Sex = none ∧
    (parse_extraction_result ("<patient_name>A</patient_name><age>abc</age><sex>male</sex><telephone>123</telephone><address> </address><kebele>5</kebele><date>31/1/2015</date>")).Telephone = none ∧
    (parse_extraction_result ("<patient_name>A</patient_name><age>abc</age><sex>male</sex><telephone>123</telephone><address> </address><kebele>5</kebele><date>31/1/2015</date>")).Address = none ∧
    (parse_extraction_result ("<patient_name>A</patient_name><age>abc</age><sex>male</sex><telephone>123</telephone><address> </address><kebele>5</kebele><date>31/1/2015</date>")).Kebele = none ∧
    (parse_extraction_result ("<patient_name>A</patient_name><age>abc</age><sex>male</sex><telephone>123</telephone><address> </address><kebele>5</kebele><date>31/1/2015</date>")).Date = none := by
  have h := c1_tagged_invalid_discard
    ("<patient_name>A</patient_name><age>abc</age><sex>male</sex><telephone>123</telephone><address> </address><kebele>5</kebele><date>31/1/2015</date>")
  have hp := h.2.2.2.2.2.2.2 (by decide)
  rw [hp]
  refine ⟨?_, ?_, ?_, ?_, ?_, ?_, ?_⟩
  · exact (h.1 (chars ("A")) (by decide)).trans (by decide)
  · exact (h.2.1 (chars ("abc")) (by decide)).trans (by decide)
  · exact h.2.2.1 (chars ("male")) (by decide) (by decide)
  · exact h.2.2.2.1 (chars ("123")) (by decide) (by decide)
  · exact h.2.2.2.2.1 (chars (" ")) (by decide) (by decide)
  · exact h.2.2.2.2.2.1 (chars ("5")) (by decide) (by decide) (by decide)
  · exact h.2.2.2.2.2.2.1 (chars ("31/1/2015")) (by decide) (by decide)

/-- C1 counterexample: the claim as stated is false — the age tag value
"abc" fails the age validator (it is not a digit string) yet the parser
stores it verbatim, so the returned Age is not null. -/
theorem c1_counterexample :
    (parse_extraction_result ("<age>abc</age>")).Age = some (chars ("abc")) ∧
    pyIsDigit (chars ("abc")) = false := by decide

/-- C2 (amended): fallback engages exactly when tagged extraction produced
no value for any field.  When at least one field was obtained from a tag,
the parser returns the tagged record as is (fields not found by a tag stay
null); when no field was obtained from a tag, every field is filled by its
pattern fallback — even if the input carried markup whose values were all
rejected. -/
theorem c2_fallback_gate (t : String) :
    (anyNonNull (taggedRec t.data) = true →
      parse_extraction_result t = taggedRec t.data) ∧
    (anyNonNull (taggedRec t.data) = false →
      parse_extraction_result t =
        ⟨fbName t.data, fbAge t.data, fbSex t.data, fbTel t.data,
         fbAddr t.data, fbKeb t.data, fbDate t.data⟩) :=
  ⟨parse_eq_tagged t, parse_eq_fallback t⟩

/-- C2 witness: both gate directions at concrete inputs. -/
theorem c2_witness :
    parse_extraction_result ("<age>34</age>") =
      taggedRec (chars ("<age>34</age>")) ∧
    parse_extraction_result ("x42") =
      ⟨fbName (chars ("x42")), fbAge (chars ("x42")), fbSex (chars ("x42")),
       fbTel (chars ("x42")), fbAddr (chars ("x42")), fbKeb (chars ("x42")),
       fbDate (chars ("x42"))⟩ :=
  ⟨(c2_fallback_gate ("<age>34</age>")).1 (by decide),
   (c2_fallback_gate ("x42")).2 (by decide)⟩

/-- C2 counterexample: the claim's "fallback engages only when the input
carries no markup whatsoever" is false — this input carries a well-formed
sex tag (whose value "X" is rejected), yet fallback engages and fills Sex
from the pattern `\b(male|female)\b`. -/
theorem c2_counterexample :
    extractTag (chars ("sex")) (chars ("<sex>X</sex> male")) =
      some (chars ("X")) ∧
    (taggedRec (chars ("<sex>X</sex> male"))).Sex = none ∧
    (parse_extraction_result ("<sex>X</sex> male")).Sex =
      some (chars ("M")) := by decide

/-- C3: `parse_extraction_result` never raises — for every input string the
body of its `try` block succeeds with exactly the returned record (so no
exception propagates), the `except` handler maps any internal failure to
the all-null record, and that record has all seven fields null. -/
theorem c3_parse_total (t : String) :
    bodyE t.data = Except.ok (parse_extraction_result t) ∧
    (∀ e : Unit, recoverRec (Except.error e) = nullRec) ∧
    nullRec.PatientName = none ∧ nullRec.Age = none ∧ nullRec.Sex = none ∧
    nullRec.Telephone = none ∧ nullRec.Address = none ∧
    nullRec.Kebele = none ∧ nullRec.Date = none :=
  ⟨bodyE_ok t, fun _ => rfl, rfl, rfl, rfl, rfl, rfl, rfl, rfl⟩

/-- C4 (amended): a date tag whose content is a bare integer is rejected,
not defaulted — the validator only accepts `DD/MM/YYYY`, so any all-digit
tag content fails validation and tagged extraction leaves Date null. -/
theorem c4_day_only_date (t c : Str)
    (he : extractTag (chars ("date")) t = some c)
    (hd : (pyStrip c).all isD = true) :
    validate_ethiopian_date (pyStrip c) = false ∧
    (taggedRec t).Date = none := by
  have hv := validate_date_of_digits _ hd
  exact ⟨hv, taggedDate_none t c he hv⟩

/-- C4 witness: the day-only tag content "15". -/
theorem c4_witness :
    validate_ethiopian_date (pyStrip (chars ("15"))) = false ∧
    (taggedRec (chars ("<date>15</date>"))).Date = none :=
  c4_day_only_date (chars ("<date>15</date>")) (chars ("15"))
    (by decide) (by decide)

/-- C4 counterexample: the claim as stated is false — for the day-only date
tag value 15 (within 1-30) the parsed Date is null and the value fails
validation; no month/year defaulting exists in the parser. -/
theorem c4_counterexample :
    validate_ethiopian_date (chars ("15")) = false ∧
    (parse_extraction_result ("<date>15</date>")).Date = none := by decide

/-- C5: `validate_ethiopian_date` enforces the Ethiopian-calendar bounds —
a date is accepted only if day ∈ [1,30], month ∈ [1,13] and (month = 13 →
day ≤ 6); concretely day 30 of month 13 is invalid, day 6 of month 13 is
valid, and day 31 of month 1 is invalid. -/
theorem c5_date_bounds (s : Str) (d m y : Nat)
    (ht : pyDateTriple s = some (d, m, y))
    (hv : validate_ethiopian_date s = true) :
    (1 ≤ d ∧ d ≤ 30 ∧ 1 ≤ m ∧ m ≤ 13 ∧ (m = 13 → d ≤ 6)) ∧
    validate_ethiopian_date (chars ("30/13/2015")) = false ∧
    validate_ethiopian_date (chars ("06/13/2015")) = true ∧
    validate_ethiopian_date (chars ("31/01/2015")) = false := by
  have h := validate_date_bounds s d m y ht hv
  exact ⟨⟨h.1, h.2.1, h.2.2.1, h.2.2.2.1, h.2.2.2.2.2.2⟩,
    by decide, by decide, by decide⟩

/-- C5 witness: the accepted date 06/13/2015 instantiates the bounds. -/
theorem c5_witness :
    (1 ≤ 6 ∧ 6 ≤ 30 ∧ 1 ≤ 13 ∧ 13 ≤ 13 ∧ (13 = 13 → 6 ≤ 6)) ∧
    validate_ethiopian_date (chars ("30/13/2015")) = false ∧
    validate_ethiopian_date (chars ("06/13/2015")) = true ∧
    validate_ethiopian_date (chars ("31/01/2015")) = false :=
  c5_date_bounds (chars ("06/13/2015")) 6 13 2015 (by decide) (by decide)

/-- C6 (amended): `validate_kebele` accepts exactly the blank strings
(empty or whitespace-only) and the two-digit values in [1,17] (with
Python's `$` also tolerating one trailing newline); the concrete round
trips hold as stated: tag content "5" gives a null Kebele, "05" is kept,
"18" gives null, "" is kept as the empty value, and `validate_data` emits
no kebele message for an empty Kebele. -/
theorem c6_kebele_acceptance :
    (∀ s : Str, validate_kebele s = ((pyStrip s).isEmpty || kebShape s)) ∧
    (parse_extraction_result ("<kebele>5</kebele>")).Kebele = none ∧
    (parse_extraction_result ("<kebele>05</kebele>")).Kebele =
      some (chars ("05")) ∧
    (parse_extraction_result ("<kebele>18</kebele>")).Kebele = none ∧
    (parse_extraction_result ("<kebele></kebele>")).Kebele =
      some (chars ("")) ∧
    validate_data ⟨none, none, none, none, none, some (chars ("")), none⟩ =
      (false, [msgNameNotFound, msgAgeNotFound, msgSexNotFound]) := by
  refine ⟨validate_kebele_eq, ?_, ?_, ?_, ?_, ?_⟩ <;> decide

/-- C6 counterexample: acceptance is not exactly "empty or 2-digit in
[1,17]" — the whitespace-only string " " is accepted by `validate_kebele`
though it is neither empty nor of length 2. -/
theorem c6_counterexample :
    validate_kebele (chars (" ")) = true ∧
    chars (" ") ≠ chars ("") ∧
    (chars (" ")).length ≠ 2 := by decide

/-- C7: `validate_data` is deterministic, and its message list is exactly
the per-field diagnostics in the fixed check order name, age, sex,
telephone, kebele, date. -/
theorem c7_validate_deterministic_ordered (d : Rec) :
    validate_data d = validate_data d ∧
    (validate_data d).2 = List.filterMap id
      [msgName d, msgAge d, msgSex d, msgTel d, msgKeb d, msgDate d] :=
  ⟨rfl, validate_data_msgs d⟩

/-- C8 (amended): `normalize_address` maps the canonical spelling
"Bahir Dar" and each of its five recognized aliases "BDR", "B/dar",
"B/dr", "Bahirdar", "Bahir dar" to the canonical string "Bahir Dar";
every address in which none of the five alias patterns occurs (as a word,
case-insensitively, in the lowered and stripped address — the `bdScan`
hypothesis below) is returned stripped but otherwise unchanged; and
`normalize_address` is idempotent for every string. -/
theorem c8_normalize_address :
    (∀ a : Str, normalize_address (normalize_address a) =
      normalize_address a) ∧
    (normalize_address (chars ("Bahir Dar")) = chars ("Bahir Dar") ∧
     normalize_address (chars ("BDR")) = chars ("Bahir Dar") ∧
     normalize_address (chars ("B/dar")) = chars ("Bahir Dar") ∧
     normalize_address (chars ("B/dr")) = chars ("Bahir Dar") ∧
     normalize_address (chars ("Bahirdar")) = chars ("Bahir Dar") ∧
     normalize_address (chars ("Bahir dar")) = chars ("Bahir Dar")) ∧
    (∀ a : Str, bdScan none (pyStrip (pyLower a)) = false →
      normalize_address a = pyStrip a) :=
  ⟨na_idem, by decide, na_notfound⟩

/-- C8 witness: idempotence and pass-through at a concrete non-alias
address. -/
theorem c8_witness :
    normalize_address (normalize_address (chars ("Addis Ababa"))) =
      normalize_address (chars ("Addis Ababa")) ∧
    normalize_address (chars ("  Addis Ababa "))
      = pyStrip (chars ("  Addis Ababa ")) :=
  ⟨c8_normalize_address.1 (chars ("Addis Ababa")),
   c8_normalize_address.2.2 (chars ("  Addis Ababa ")) (by decide)⟩

/-- C8 counterexample: "every other address is returned trimmed but
otherwise unchanged" is false — an address that merely contains an alias
as a word (and is itself neither the canonical spelling nor one of the
five aliases) is collapsed to "Bahir Dar" instead of passing through. -/
theorem c8_counterexample :
    normalize_address (chars ("Kebele 02 BDR")) = chars ("Bahir Dar") ∧
    pyStrip (chars ("Kebele 02 BDR")) = chars ("Kebele 02 BDR") ∧
    pyLower (chars ("Kebele 02 BDR")) ∉
      [pyLower (chars ("Bahir Dar")), pyLower (chars ("BDR")),
       pyLower (chars ("B/dar")), pyLower (chars ("B/dr")),
       pyLower (chars ("Bahirdar")), pyLower (chars ("Bahir dar"))] ∧
    normalize_address (chars ("Kebele 02 BDR")) ≠
      chars ("Kebele 02 BDR") := by decide

/-- C9: `validate_data` never mutates the record it validates — in the
state-threaded rendering, the record that comes out of the call is the
record that went in, and the diagnostics are those of `validate_data`. -/
theorem c9_validate_no_mutation (d : Rec) :
    (validate_data_st d).1 = d ∧ (validate_data_st d).2 = validate_data d :=
  ⟨rfl, rfl⟩

/-- C10: `validate_ethiopian_date` additionally requires the year to lie in
[1000, 9999]; a date whose day and month are in bounds but whose year is
0999 is rejected, and the parsed record's Date is null for it. -/
theorem c10_year_bound (s : Str) (d m y : Nat)
    (ht : pyDateTriple s = some (d, m, y))
    (hv : validate_ethiopian_date s = true) :
    (1000 ≤ y ∧ y ≤ 9999) ∧
    validate_ethiopian_date (chars ("15/08/0999")) = false ∧
    (parse_extraction_result ("<date>15/08/0999</date>")).Date = none := by
  have h := validate_date_bounds s d m y ht hv
  exact ⟨⟨h.2.2.2.2.1, h.2.2.2.2.2.1⟩, by decide, by decide⟩

/-- C10 witness: the accepted date 15/08/2015 instantiates the year
bound. -/
theorem c10_witness :
    (1000 ≤ 2015 ∧ 2015 ≤ 9999) ∧
    validate_ethiopian_date (chars ("15/08/0999")) = false ∧
    (parse_extraction_result ("<date>15/08/0999</date>")).Date = none :=
  c10_year_bound (chars ("15/08/2015")) 15 8 2015 (by decide) (by decide)

end CardParse
